import Mathlib

/-!
Verification of the allocation/latency regression-testing harness
(`threshold.rs`, `alloc/measure.rs`, `alloc/compare.rs`, `perf/measure.rs`).

The Rust code is shallowly embedded: `usize`/`u32` counters become `Nat`
(the harness's generic `Threshold<T>` is instantiated at unsigned integer
types; overflow is modelled explicitly with `% 2 ^ 64` in the one place a
claim is about overflow), fallible/panicking code returns `Option`
(`Option.none` models a Rust panic), and `Result<(), E>` becomes
`Except E Unit`.
-/

namespace AllocTest

/-! ## Threshold (`src/threshold.rs`) -/

/-- `Threshold<T>` from `threshold.rs` instantiated at an unsigned integer
type.  `Ratio num den` carries the numerator and denominator of the
`num::rational::Ratio` built by `Threshold::ratio` via `Ratio::new`
(which panics on a zero denominator, so constructed thresholds have
`den > 0`). -/
inductive Threshold where
  | None : Threshold
  | Cap (c : Nat) : Threshold
  | Ratio (num den : Nat) : Threshold
deriving DecidableEq, Repr

/-- Payload of `ThresholdError` (`threshold.rs` lines 37-43): the violated
limit, the measured value and the reference value. -/
structure ThresholdError where
  limit : Threshold
  value : Nat
  ref_value : Nat
deriving DecidableEq, Repr

/-- `Threshold::check_cap` (`threshold.rs` line 49-51):
`value <= ref_value + cap`, with the addition exact (the generic code is
also used at arbitrary-precision integers; the fixed-width release
semantics is modelled separately by `check_cap_u64`). -/
def check_cap (cap value ref_value : Nat) : Bool :=
  value ≤ ref_value + cap

/-- `Threshold::check_cap` at `T = u64/usize` with Rust release-profile
semantics: the `+` on a fixed-width unsigned integer wraps modulo
`2 ^ 64`.  Arguments are u64 values, i.e. below `2 ^ 64`. -/
def check_cap_u64 (cap value ref_value : Nat) : Bool :=
  value ≤ (ref_value + cap) % 2 ^ 64

/-- Modelled from the spec: the cap check the spec mandates, with the
addition `ref_value + cap` performed with saturating arithmetic at the
top of the 64-bit range instead of wrapping. -/
def check_cap_saturating (cap value ref_value : Nat) : Bool :=
  value ≤ min (ref_value + cap) (2 ^ 64 - 1)

/-- `Threshold::check_ratio` (`threshold.rs` lines 53-56):
`value <= ref_value || Ratio::new(value - ref_value, ref_value) <= ratio`.
`Option.none` models the panic of `num::rational::Ratio::new` when its
denominator `ref_value` is zero (reached exactly when `value > ref_value`
and `ref_value = 0`, because `||` short-circuits).  In the remaining
branch `value > ref_value > 0`, and the unsigned subtraction
`value - ref_value` is exact; `num`'s `Ord` on `Ratio` is the exact
rational order, which for the positive denominators `ref_value` and `den`
is cross-multiplication: `(value - ref_value) * den ≤ num * ref_value`. -/
def check_ratio (num den value ref_value : Nat) : Option Bool :=
  if value ≤ ref_value then some true
  else if ref_value = 0 then Option.none
  else some (decide ((value - ref_value) * den ≤ num * ref_value))

/-- `Threshold::check` (`threshold.rs` lines 58-74): match on the variant,
return `Err(ThresholdError { limit, value, ref_value })` when the
variant's predicate rejects, `Ok(())` otherwise.  The outer `Option`
propagates the possible panic of `check_ratio`. -/
def Threshold.check (t : Threshold) (value ref_value : Nat) :
    Option (Except ThresholdError Unit) :=
  match t with
  | Threshold.Cap c =>
      if check_cap c value ref_value then some (Except.ok ())
      else some (Except.error ⟨t, value, ref_value⟩)
  | Threshold.Ratio n d =>
      match check_ratio n d value ref_value with
      | Option.none => Option.none
      | some b =>
          if b then some (Except.ok ())
          else some (Except.error ⟨t, value, ref_value⟩)
  | Threshold.None => some (Except.ok ())

/-! ## Claims C1, C3, C4 -/

/-- C1: the claim states that for `Threshold::Ratio` with `ref_value = 0`
and `value > 0` the check is defined and returns an `Err` violation.  In
the code, `check_ratio` reaches `Ratio::new(value - 0, 0)`, whose
denominator is zero, and `num::rational::Ratio::new` panics
(`denominator == 0`); the check neither returns `Err` nor `Ok`.  This
theorem evaluates the embedded code at the failing input
`Threshold::ratio(1, 10).check(&1, &0)`: the result is the panic marker
`Option.none`, not `some (Except.error _)`. -/
theorem ratio_check_zero_baseline_panics :
    check_ratio 1 10 1 0 = Option.none ∧
      Threshold.check (Threshold.Ratio 1 10) 1 0 = Option.none :=
  ⟨rfl, rfl⟩

/-- C3: the claim states that the cap addition `ref_value + c` rejects via
saturating arithmetic and never silently wraps.  The code uses a plain
`+`; at `T = u64/usize` in a release build the sum wraps modulo `2 ^ 64`.
Failing input: `cap = 2 ^ 64 - 1`, `ref_value = 1`, `value = 1` (the value
equals the baseline, hence is legitimate): the wrapped bound is
`(1 + (2 ^ 64 - 1)) % 2 ^ 64 = 0`, so the code reports a violation, while
the saturating check the spec mandates passes. -/
theorem cap_overflow_wraps :
    check_cap_u64 (2 ^ 64 - 1) 1 1 = false ∧
      check_cap_saturating (2 ^ 64 - 1) 1 1 = true := by
  constructor
  · decide
  · decide

/-- C4: for every `Threshold::Ratio(num/den)` (constructed ratios have
`den > 0`) and every value with `ref_value > 0`, the check passes iff
`(value − ref_value) * den ≤ num * ref_value` in exact integer
arithmetic (stated over `Int`, so that the difference is meaningful also
when `value < ref_value`). -/
theorem ratio_check_exact (num den value ref_value : Nat)
    (href : 0 < ref_value) (hden : 0 < den) :
    Threshold.check (Threshold.Ratio num den) value ref_value
        = some (Except.ok ()) ↔
      ((value : Int) - ref_value) * den ≤ num * ref_value := by
  unfold Threshold.check check_ratio
  by_cases hle : value ≤ ref_value
  · simp only [hle, if_true]
    constructor
    · intro _
      have h1 : ((value : Int) - ref_value) * den ≤ 0 := by
        apply mul_nonpos_of_nonpos_of_nonneg
        · omega
        · positivity
      have h2 : (0 : Int) ≤ num * ref_value := by positivity
      omega
    · intro _
      trivial
  · have hne : ref_value ≠ 0 := by omega
    have hsub : ref_value ≤ value := by omega
    have key : ((value - ref_value) * den ≤ num * ref_value) ↔
        (((value : Int) - (ref_value : Int)) * (den : Int)
          ≤ (num : Int) * (ref_value : Int)) := by
      zify [hsub]
    by_cases hcmp : (value - ref_value) * den ≤ num * ref_value
    · simp [hle, hne, hcmp, key.mp hcmp]
    · have hnot : ¬(((value : Int) - (ref_value : Int)) * (den : Int)
          ≤ (num : Int) * (ref_value : Int)) :=
        fun h => hcmp (key.mpr h)
      simp [hle, hne, hcmp, hnot]

/-- Witness for C4 at `Threshold::ratio(1, 10)`, `value = 110`,
`ref_value = 100` (the boundary case of the repository's own test). -/
theorem ratio_check_exact_witness :
    Threshold.check (Threshold.Ratio 1 10) 110 100 = some (Except.ok ()) :=
  (ratio_check_exact 1 10 110 100 (by decide) (by decide)).mpr (by decide)

/-! ## Memory trace session accumulator (`src/alloc/measure.rs`) -/

/-- `MemoryStats` (`alloc/measure.rs` lines 16-22); all counters are
`usize`. -/
@[ext]
structure MemoryStats where
  current : Nat
  peak : Nat
  total_size : Nat
  total_num : Nat
  reallocs : Nat
deriving DecidableEq, Repr

/-- `MemoryTracingHooks::on_alloc` (`alloc/measure.rs` lines 69-81) on the
accumulator, during an active session (`TRACE_ALLOCS` is true):
`current += size; total_size += size; total_num += 1;
if current > peak { peak = current }`. -/
def on_alloc (s : MemoryStats) (size : Nat) : MemoryStats :=
  let current := s.current + size
  { s with
    current := current
    total_size := s.total_size + size
    total_num := s.total_num + 1
    peak := if current > s.peak then current else s.peak }

/-- `MemoryTracingHooks::on_dealloc` (`alloc/measure.rs` lines 83-89)
during an active session: `current = current.saturating_sub(size)`
(`Nat` subtraction is exactly `saturating_sub`). -/
def on_dealloc (s : MemoryStats) (size : Nat) : MemoryStats :=
  { s with current := s.current - size }

/-- `MemoryTracingHooks::on_realloc` (`alloc/measure.rs` lines 95-112)
during an active session: `reallocs += 1`, then `on_dealloc(old_size)`,
then `on_alloc(new_size)`, in that order. -/
def on_realloc (s : MemoryStats) (old_size new_size : Nat) : MemoryStats :=
  on_alloc (on_dealloc { s with reallocs := s.reallocs + 1 } old_size) new_size

/-- A hook event observed during a recording window.  `allocZeroed`
delegates to `on_alloc` in the source (`on_alloc_zeroed`,
`alloc/measure.rs` lines 91-93). -/
inductive AllocEvent where
  | alloc (size : Nat) : AllocEvent
  | dealloc (size : Nat) : AllocEvent
  | allocZeroed (size : Nat) : AllocEvent
  | realloc (old_size new_size : Nat) : AllocEvent
deriving DecidableEq, Repr

/-- One hook dispatch on the accumulator. -/
def stepEvent (s : MemoryStats) : AllocEvent → MemoryStats
  | AllocEvent.alloc n => on_alloc s n
  | AllocEvent.dealloc n => on_dealloc s n
  | AllocEvent.allocZeroed n => on_alloc s n
  | AllocEvent.realloc o n => on_realloc s o n

/-- The zero accumulator a session starts from (`ALLOC_STATS` initial
value, `alloc/measure.rs` lines 26-32; `trace_allocs` resets it back to
`Default::default()` on stop). -/
def zeroStats : MemoryStats :=
  { current := 0, peak := 0, total_size := 0, total_num := 0, reallocs := 0 }

/-- The snapshot of a session whose recorded hook events are exactly
`events`. -/
def runEvents (events : List AllocEvent) : MemoryStats :=
  events.foldl stepEvent zeroStats

/-! ## Claim C2 -/

/-- C2's counterexample: one allocation of 3 bytes followed by one
reallocation of that object to 5 bytes does not produce the claimed
snapshot `total_num = 1` (with `current = 5`, `peak = max 3 5 = 5`,
`total_size = 8`, `reallocs = 1`): the realloc is processed as a dealloc
plus an alloc, and the embedded alloc increments `total_num` a second
time, giving `total_num = 2`. -/
theorem trace_realloc_snapshot_counterexample :
    runEvents [AllocEvent.alloc 3, AllocEvent.realloc 3 5]
      ≠ { current := 5, peak := 5, total_size := 8, total_num := 1,
          reallocs := 1 } := by
  decide

/-- C2 amended: a session recording one allocation of `S1` then one
reallocation of that object to `S2` yields `total_num = 2` (the realloc's
embedded alloc counts a second allocation event), `reallocs = 1`,
`current = S2`, `peak = max S1 S2`, `total_size = S1 + S2`, the realloc
being processed as one realloc event plus a dealloc of `old_size` plus an
alloc of `new_size`, in that order. -/
theorem trace_realloc_snapshot (S1 S2 : Nat) :
    runEvents [AllocEvent.alloc S1, AllocEvent.realloc S1 S2]
      = { current := S2, peak := max S1 S2, total_size := S1 + S2,
          total_num := 2, reallocs := 1 } := by
  ext
  all_goals simp [runEvents, stepEvent, on_alloc, on_dealloc, on_realloc,
    zeroStats]
  all_goals try split_ifs
  all_goals omega

/-! ## Claim C6 -/

/-- `on_alloc` re-establishes `current ≤ peak` unconditionally: the
update sets `peak` to `max` of the old peak and the new current. -/
theorem on_alloc_current_le_peak (s : MemoryStats) (n : Nat) :
    (on_alloc s n).current ≤ (on_alloc s n).peak := by
  simp only [on_alloc]
  split_ifs <;> omega

/-- Every hook event preserves the invariant `current ≤ peak`. -/
theorem stepEvent_current_le_peak (s : MemoryStats) (e : AllocEvent)
    (h : s.current ≤ s.peak) :
    (stepEvent s e).current ≤ (stepEvent s e).peak := by
  cases e with
  | alloc n => exact on_alloc_current_le_peak s n
  | dealloc n =>
      simp only [stepEvent, on_dealloc]
      omega
  | allocZeroed n => exact on_alloc_current_le_peak s n
  | realloc o n => exact on_alloc_current_le_peak _ n

/-- Along any trace from the zero accumulator, `current ≤ peak`. -/
theorem foldl_current_le_peak (l : List AllocEvent) (s : MemoryStats)
    (h : s.current ≤ s.peak) :
    (l.foldl stepEvent s).current ≤ (l.foldl stepEvent s).peak := by
  induction l generalizing s with
  | nil => exact h
  | cons e t ih =>
      exact ih (stepEvent s e) (stepEvent_current_le_peak s e h)

/-- Appending one event steps the snapshot once. -/
theorem runEvents_append (l : List AllocEvent) (e : AllocEvent) :
    runEvents (l ++ [e]) = stepEvent (runEvents l) e := by
  simp [runEvents, List.foldl_append]

/-- C6: at every observation point of a session (i.e. after any prefix
`l` of recorded events, starting from the zero accumulator),
`current ≤ peak`; each further event leaves `peak`, `total_size`,
`total_num` and `reallocs` non-decreasing; a dealloc of `d` sets
`current` to the saturating difference `current - d`, in particular to
`0` (never underflowing) whenever `d` is at least the current value. -/
theorem alloc_stats_invariants :
    (∀ l : List AllocEvent,
        (runEvents l).current ≤ (runEvents l).peak)
    ∧ (∀ (l : List AllocEvent) (e : AllocEvent),
        (runEvents l).peak ≤ (runEvents (l ++ [e])).peak
        ∧ (runEvents l).total_size ≤ (runEvents (l ++ [e])).total_size
        ∧ (runEvents l).total_num ≤ (runEvents (l ++ [e])).total_num
        ∧ (runEvents l).reallocs ≤ (runEvents (l ++ [e])).reallocs)
    ∧ (∀ (l : List AllocEvent) (d : Nat),
        (runEvents (l ++ [AllocEvent.dealloc d])).current
          = (runEvents l).current - d)
    ∧ (∀ (l : List AllocEvent) (d : Nat),
        (runEvents l).current ≤ d →
        (runEvents (l ++ [AllocEvent.dealloc d])).current = 0) := by
  refine ⟨?_, ?_, ?_, ?_⟩
  · intro l
    exact foldl_current_le_peak l zeroStats (Nat.le_refl 0)
  · intro l e
    rw [runEvents_append]
    cases e <;>
      simp [stepEvent, on_alloc, on_dealloc, on_realloc] <;>
      split_ifs <;> omega
  · intro l d
    rw [runEvents_append]
    rfl
  · intro l d h
    rw [runEvents_append]
    simp only [stepEvent, on_dealloc]
    omega

/-- Witness for C6's saturation clause: after a single allocation of 3
bytes, a recorded dealloc of 5 bytes leaves `current = 0`. -/
theorem alloc_stats_invariants_witness :
    (runEvents ([AllocEvent.alloc 3] ++ [AllocEvent.dealloc 5])).current
      = 0 :=
  alloc_stats_invariants.2.2.2 [AllocEvent.alloc 3] 5 (by decide)

/-! ## Composite comparator (`src/alloc/compare.rs`) -/

/-- `AllocThresholds` (`alloc/compare.rs` lines 8-20): one `Threshold`
per `MemoryStats` field. -/
structure AllocThresholds where
  current : Threshold
  peak : Threshold
  total_size : Threshold
  total_num : Threshold
  reallocs : Threshold
deriving DecidableEq, Repr

/-- `AllocThresholdsError` (`alloc/compare.rs` lines 22-27): the
underlying per-field `ThresholdError` tagged with the field's name. -/
structure AllocThresholdsError where
  error : ThresholdError
  param : String
deriving DecidableEq, Repr

/-- The `check!` macro of `alloc/compare.rs` (lines 29-36): run one
field's `Threshold::check` and wrap its error with the field name. -/
def checkField (t : Threshold) (v r : Nat) (param : String) :
    Option (Except AllocThresholdsError Unit) :=
  match t.check v r with
  | Option.none => Option.none
  | some (Except.ok ()) => some (Except.ok ())
  | some (Except.error e) => some (Except.error ⟨e, param⟩)

/-- Rust's `?` on a per-field result: an error (or a panic) stops the
remaining checks. -/
def andThenCheck (x : Option (Except AllocThresholdsError Unit))
    (k : Unit → Option (Except AllocThresholdsError Unit)) :
    Option (Except AllocThresholdsError Unit) :=
  match x with
  | Option.none => Option.none
  | some (Except.error e) => some (Except.error e)
  | some (Except.ok ()) => k ()

/-- `AllocThresholds::check` (`alloc/compare.rs` lines 46-59):
`check!(current)?; check!(peak)?; check!(total_size)?; check!(total_num)?;
check!(reallocs)?; Ok(())`. -/
def AllocThresholds.check (l : AllocThresholds) (v r : MemoryStats) :
    Option (Except AllocThresholdsError Unit) :=
  andThenCheck (checkField l.current v.current r.current "current") fun _ =>
  andThenCheck (checkField l.peak v.peak r.peak "peak") fun _ =>
  andThenCheck (checkField l.total_size v.total_size r.total_size
      "total_size") fun _ =>
  andThenCheck (checkField l.total_num v.total_num r.total_num
      "total_num") fun _ =>
  andThenCheck (checkField l.reallocs v.reallocs r.reallocs
      "reallocs") fun _ =>
  some (Except.ok ())

/-- Modelled from the spec: walk the per-field results in their fixed
order and return the first failure, tagged with its field name; `Ok` when
none fails. -/
def firstFieldFailure :
    List (String × Except ThresholdError Unit) →
      Except AllocThresholdsError Unit
  | [] => Except.ok ()
  | (p, Except.error e) :: _ => Except.error ⟨e, p⟩
  | (_, Except.ok ()) :: rest => firstFieldFailure rest

/-! ## Claim C5 -/

/-- C5: when every per-field check is defined (returns without a panic),
the composite comparator returns exactly the first failure among the
fields taken in the fixed order `current, peak, total_size, total_num,
reallocs`, tagged with that field's name — even when several fields would
fail — and `Ok` when no field fails. -/
theorem alloc_check_first_failure (l : AllocThresholds) (v r : MemoryStats)
    (c1 c2 c3 c4 c5 : Except ThresholdError Unit)
    (h1 : Threshold.check l.current v.current r.current = some c1)
    (h2 : Threshold.check l.peak v.peak r.peak = some c2)
    (h3 : Threshold.check l.total_size v.total_size r.total_size = some c3)
    (h4 : Threshold.check l.total_num v.total_num r.total_num = some c4)
    (h5 : Threshold.check l.reallocs v.reallocs r.reallocs = some c5) :
    AllocThresholds.check l v r
      = some (firstFieldFailure
          [("current", c1), ("peak", c2), ("total_size", c3),
            ("total_num", c4), ("reallocs", c5)]) := by
  rcases c1 with e1 | u1 <;> rcases c2 with e2 | u2 <;>
    rcases c3 with e3 | u3 <;> rcases c4 with e4 | u4 <;>
    rcases c5 with e5 | u5 <;>
    simp_all [AllocThresholds.check, andThenCheck, checkField,
      firstFieldFailure]

/-- Witness for C5 at the repository's own test data
(`alloc/compare.rs` tests), with both the `current` and the `reallocs`
thresholds failing: the verdict is the `current` violation. -/
theorem alloc_check_first_failure_witness :
    AllocThresholds.check
        ⟨Threshold.Cap 1, Threshold.None, Threshold.None, Threshold.None,
          Threshold.Cap 0⟩
        ⟨110, 1100, 2200, 110, 1⟩ ⟨100, 1000, 2000, 100, 0⟩
      = some (Except.error ⟨⟨Threshold.Cap 1, 110, 100⟩, "current"⟩) :=
  alloc_check_first_failure
    ⟨Threshold.Cap 1, Threshold.None, Threshold.None, Threshold.None,
      Threshold.Cap 0⟩
    ⟨110, 1100, 2200, 110, 1⟩ ⟨100, 1000, 2000, 100, 0⟩
    (Except.error ⟨Threshold.Cap 1, 110, 100⟩) (Except.ok ())
    (Except.ok ()) (Except.ok ())
    (Except.error ⟨Threshold.Cap 0, 1, 0⟩)
    rfl rfl rfl rfl rfl

/-! ## Claim C10 -/

/-- C10: `Threshold::check` is downward-closed in the measured value:
whenever `check v r` passes, `check v2 r` passes for every `v2 ≤ v`; in
particular `check v v` always passes, and a `MemoryStats` measurement
identical to its baseline passes the composite comparator under every
threshold configuration.  (The model's exact `Nat` addition embodies the
claim's proviso that `r + c` does not overflow.) -/
theorem threshold_check_monotone :
    (∀ (t : Threshold) (v v2 r : Nat), v2 ≤ v →
        Threshold.check t v r = some (Except.ok ()) →
        Threshold.check t v2 r = some (Except.ok ()))
    ∧ (∀ (t : Threshold) (v : Nat),
        Threshold.check t v v = some (Except.ok ()))
    ∧ (∀ (l : AllocThresholds) (s : MemoryStats),
        AllocThresholds.check l s s = some (Except.ok ())) := by
  have hrefl : ∀ (t : Threshold) (v : Nat),
      Threshold.check t v v = some (Except.ok ()) := by
    intro t v
    cases t with
    | None => rfl
    | Cap c =>
        simp [Threshold.check, check_cap]
    | Ratio n d =>
        simp [Threshold.check, check_ratio]
  have hmono : ∀ (t : Threshold) (v v2 r : Nat), v2 ≤ v →
      Threshold.check t v r = some (Except.ok ()) →
      Threshold.check t v2 r = some (Except.ok ()) := by
    intro t v v2 r hle h
    cases t with
    | None => rfl
    | Cap c =>
        simp only [Threshold.check, check_cap] at h ⊢
        have hv : v ≤ r + c := by
          by_contra hc
          simp [hc] at h
        have hv2 : v2 ≤ r + c := le_trans hle hv
        simp [hv2]
    | Ratio n d =>
        simp only [Threshold.check, check_ratio] at h ⊢
        by_cases hv2 : v2 ≤ r
        · simp [hv2]
        · have hv : ¬ v ≤ r := by omega
          have hr : r ≠ 0 := by
            intro h0
            subst h0
            have hv0 : v ≠ 0 := by omega
            simp [hv, hv0] at h
          have hpass : (v - r) * d ≤ n * r := by
            by_contra hc
            simp [hv, hr, hc] at h
          have hpass2 : (v2 - r) * d ≤ n * r :=
            le_trans (mul_le_mul_right' (show v2 - r ≤ v - r by omega) d)
              hpass
          simp [hv2, hr, hpass2]
  refine ⟨hmono, hrefl, ?_⟩
  intro l s
  simp [AllocThresholds.check, andThenCheck, checkField, hrefl]

/-- Witness for C10: `Threshold::ratio(1, 10)` passes at
`value = 110, ref_value = 100`, hence also at the smaller `value = 50`;
and the identical measurement passes the composite comparator. -/
theorem threshold_check_monotone_witness :
    Threshold.check (Threshold.Ratio 1 10) 50 100 = some (Except.ok ())
    ∧ AllocThresholds.check
        ⟨Threshold.Cap 1, Threshold.None, Threshold.Ratio 1 10,
          Threshold.None, Threshold.Cap 0⟩
        ⟨110, 1100, 2200, 110, 1⟩ ⟨110, 1100, 2200, 110, 1⟩
      = some (Except.ok ()) :=
  ⟨threshold_check_monotone.1 (Threshold.Ratio 1 10) 110 50 100
      (by decide) rfl,
    threshold_check_monotone.2.2
      ⟨Threshold.Cap 1, Threshold.None, Threshold.Ratio 1 10,
        Threshold.None, Threshold.Cap 0⟩
      ⟨110, 1100, 2200, 110, 1⟩⟩

/-! ## Orchestration with baseline I/O (`src/threshold.rs` lines 103-156) -/

/-- Outcome of `fs::read_to_string(baseline)` as seen by
`check_threshold_with_io`: success with the file's content, the
`io::ErrorKind::NotFound` failure, or any other I/O failure. -/
inductive ReadResult where
  | ok (content : String) : ReadResult
  | notFound : ReadResult
  | otherError : ReadResult
deriving DecidableEq, Repr

/-- `CheckThresholdError` (`threshold.rs` lines 103-111): the three
variants `Regression(H::Error)`, `IO(io::Error)` and
`Decode(toml::de::Error)`.  The embedded `Io` variant (named `Io` here)
carries whether the wrapped `io::Error` has kind `NotFound`, which is
what distinguishes "baseline not found" (strict mode) from other I/O
failures. -/
inductive CheckThresholdError (E : Type) where
  | Regression (e : E) : CheckThresholdError E
  | Io (notFound : Bool) : CheckThresholdError E
  | Decode : CheckThresholdError E
deriving DecidableEq, Repr

/-- `check_threshold_with_io` (`threshold.rs` lines 113-156), with the
I/O effects abstracted: `value` is the measurement `f()` already
produced, `readBaseline` the outcome of `fs::read_to_string(baseline)`,
`decode` the `toml::from_str` deserializer (`Option.none` = decode
failure).  The `save_new` branch only writes the measurement back to disk
and then returns `Ok(value)`; the write path is pure I/O and outside this
model, so the model returns `Except.ok value` there. -/
def check_threshold_with_io_model {T E : Type}
    (value : T) (readBaseline : ReadResult) (decode : String → Option T)
    (check : T → T → Except E Unit)
    (load_prev strict_compare : Bool) :
    Except (CheckThresholdError E) T :=
  if load_prev then
    match readBaseline with
    | ReadResult.ok content =>
        match decode content with
        | Option.none => Except.error CheckThresholdError.Decode
        | some ref_value =>
            match check value ref_value with
            | Except.error e =>
                Except.error (CheckThresholdError.Regression e)
            | Except.ok () => Except.ok value
    | ReadResult.notFound =>
        if strict_compare then
          Except.error (CheckThresholdError.Io true)
        else Except.ok value
    | ReadResult.otherError => Except.error (CheckThresholdError.Io false)
  else Except.ok value

/-! ## Claim C7 -/

/-- C7: with a baseline to be loaded and strict mode off, a "file not
found" outcome is recovered locally — the run succeeds with the new
measurement for every comparator, so no comparison is performed; every
other outcome surfaces as its own variant: other I/O failures as `Io`,
decode failures as `Decode`, a failed comparison as `Regression`, and in
strict mode "baseline not found" as an `Io` error, a variant distinct
from `Regression`. -/
theorem check_io_error_surface {T E : Type} :
    (∀ (value : T) (decode : String → Option T)
        (check : T → T → Except E Unit),
        check_threshold_with_io_model value ReadResult.notFound decode
            check true false
          = Except.ok value)
    ∧ (∀ (value : T) (decode : String → Option T)
        (check : T → T → Except E Unit),
        check_threshold_with_io_model value ReadResult.notFound decode
            check true true
          = Except.error (CheckThresholdError.Io true))
    ∧ (∀ (value : T) (decode : String → Option T)
        (check : T → T → Except E Unit) (strict : Bool),
        check_threshold_with_io_model value ReadResult.otherError decode
            check true strict
          = Except.error (CheckThresholdError.Io false))
    ∧ (∀ (value : T) (content : String) (decode : String → Option T)
        (check : T → T → Except E Unit) (strict : Bool),
        decode content = Option.none →
        check_threshold_with_io_model value (ReadResult.ok content) decode
            check true strict
          = Except.error CheckThresholdError.Decode)
    ∧ (∀ (value ref_value : T) (content : String)
        (decode : String → Option T) (check : T → T → Except E Unit)
        (strict : Bool) (e : E),
        decode content = some ref_value →
        check value ref_value = Except.error e →
        check_threshold_with_io_model value (ReadResult.ok content) decode
            check true strict
          = Except.error (CheckThresholdError.Regression e))
    ∧ (∀ (e : E) (b : Bool),
        (CheckThresholdError.Io b : CheckThresholdError E)
          ≠ CheckThresholdError.Regression e) := by
  refine ⟨?_, ?_, ?_, ?_, ?_, ?_⟩
  · intro value decode check
    rfl
  · intro value decode check
    rfl
  · intro value decode check strict
    rfl
  · intro value content decode check strict hdec
    simp [check_threshold_with_io_model, hdec]
  · intro value ref_value content decode check strict e hdec hchk
    simp [check_threshold_with_io_model, hdec, hchk]
  · intro e b
    simp

/-- Witness for C7: with a decoder returning baseline `0` and a
comparator that always reports violation `7`, the run on an existing
baseline file surfaces `Regression 7`; with the baseline file missing
and strict mode off, the same run succeeds with the measurement. -/
theorem check_io_error_surface_witness :
    check_threshold_with_io_model 5 (ReadResult.ok "stats")
        (fun _ => some 0) (fun _ _ => Except.error 7) true true
      = Except.error (CheckThresholdError.Regression 7)
    ∧ check_threshold_with_io_model 5 ReadResult.notFound
        (fun _ => some 0) (fun _ _ => Except.error (7 : Nat)) true false
      = Except.ok 5 :=
  ⟨check_io_error_surface.2.2.2.2.1 5 0 "stats" (fun _ => some 0)
      (fun _ _ => Except.error 7) true 7 rfl rfl,
    check_io_error_surface.1 5 (fun _ => some 0)
      (fun _ _ => Except.error 7)⟩

/-! ## Performance benchmark preconditions (`src/perf/measure.rs`) -/

/-- `bench_internal` (`perf/measure.rs` lines 135-146) with the timing
oracle `times i` standing for the duration measured on iteration `i` (the
statistics fed from it are Welford updates on `f64`, outside this model;
the model returns the list of samples passed to `stats.update`, i.e.
those with `wu_cd_iters <= i < iters - wu_cd_iters`).  `Option.none`
models a panic before any timed execution: `assert!(iters >= 20)`,
`assert!(iters / wu_cd_iters > 3)` — for `wu_cd_iters = 0` Rust panics on
the division itself, and Lean's `iters / 0 = 0` makes the same guard
false, so `Option.none` is returned in that case too. -/
def bench_internal (iters wu_cd_iters : Nat) (times : Nat → Nat) :
    Option (List Nat) :=
  if iters < 20 then Option.none
  else if ¬ (iters / wu_cd_iters > 3) then Option.none
  else
    some (((List.range iters).filter fun i =>
      decide (wu_cd_iters ≤ i ∧ i < iters - wu_cd_iters)).map times)

/-! ## Claim C8 -/

/-- C8: for every call with `iterations < 20` or
`iterations / warmup_and_cooldown_iterations ≤ 3`, the measurement fails
immediately — the result is the panic marker for every timing oracle, so
no timed execution influences it; and under the preconditions both
assertions are unreachable as failures: the run produces a result. -/
theorem bench_internal_preconditions :
    (∀ (iters wu_cd_iters : Nat) (times : Nat → Nat),
        iters < 20 ∨ iters / wu_cd_iters ≤ 3 →
        bench_internal iters wu_cd_iters times = Option.none)
    ∧ (∀ (iters wu_cd_iters : Nat) (times : Nat → Nat),
        20 ≤ iters → 3 < iters / wu_cd_iters →
        ∃ samples, bench_internal iters wu_cd_iters times = some samples) := by
  constructor
  · intro iters wu_cd_iters times h
    rcases h with h | h
    · simp [bench_internal, h]
    · have h2 : ¬ (iters / wu_cd_iters > 3) := by omega
      simp [bench_internal, h2]
  · intro iters wu_cd_iters times h1 h2
    have h3 : ¬ iters < 20 := by omega
    refine ⟨((List.range iters).filter fun i =>
      decide (wu_cd_iters ≤ i ∧ i < iters - wu_cd_iters)).map times, ?_⟩
    simp [bench_internal, h3, h2]

/-- Witness for C8: `bench_iters(10, f)` (i.e. `iters = 10`,
`wu_cd_iters = 1`) fails fast regardless of the timing oracle, and the
default `bench` configuration `iters = 20, wu_cd_iters = 5` runs. -/
theorem bench_internal_preconditions_witness :
    bench_internal 10 1 (fun _ => 0) = Option.none
    ∧ ∃ samples, bench_internal 20 5 (fun _ => 0) = some samples :=
  ⟨bench_internal_preconditions.1 10 1 (fun _ => 0) (Or.inl (by decide)),
    bench_internal_preconditions.2 20 5 (fun _ => 0) (by decide)
      (by decide)⟩

end AllocTest
